import Mathlib

/-!
Verification of the real-time data synchronization client of the SIH_25
dashboard repository: the `ApiClient` class (event bus `on`/`off`/`emit`,
retrying `request`, WebSocket connect/disconnect) and the `use-api` hooks.
Each definition is a shallow embedding of the corresponding TypeScript
function; theorems settle the specification claims against them.
-/

namespace SIH

/-! ## Event bus (`ApiClient.on` / `off` / `emit`)

`listeners` is a `Map<string, Function[]>`.  A callback is modelled by the
bus operations its body performs when invoked: `unregs` are `off` calls,
`regs` are `on` calls registering fresh no-op callbacks (identified by a
numeric id), and `throws` says whether the body finally throws.  JavaScript
function identity is modelled by the numeric `id`; `off` uses
`indexOf`/`splice`, i.e. it removes the first occurrence. -/

structure Cb where
  id : Nat
  unregs : List (String × Nat)
  regs : List (String × Nat)
  throws : Bool
  deriving Repr, DecidableEq

/-- A callback that performs no bus operations and does not throw. -/
def pureCb (i : Nat) : Cb := ⟨i, [], [], false⟩

/-- The listener registry: insertion-ordered association of event name to
callback array, as the `Map<string, Function[]>` of the source. -/
abbrev Bus := List (String × List Cb)

/-- `this.listeners.get(event)`. -/
def busGet (b : Bus) (e : String) : Option (List Cb) :=
  match b with
  | [] => none
  | (k, l) :: rest => if k = e then some l else busGet rest e

/-- Replace the array stored under an existing key (mutation of the array
returned by `get`). -/
def busSet (b : Bus) (e : String) (l : List Cb) : Bus :=
  match b with
  | [] => []
  | (k, v) :: rest => if k = e then (k, l) :: rest else (k, v) :: busSet rest e l

/-- `ApiClient.on`: create the array if absent, then push the callback. -/
def onBus (b : Bus) (e : String) (c : Cb) : Bus :=
  match busGet b e with
  | none => b ++ [(e, [c])]
  | some l => busSet b e (l ++ [c])

/-- `indexOf` + `splice(index, 1)`: drop the first occurrence. -/
def removeFirst (l : List Cb) (i : Nat) : List Cb :=
  match l with
  | [] => []
  | c :: rest => if c.id = i then rest else c :: removeFirst rest i

/-- `ApiClient.off`: splice the callback out of the event's array if present;
a no-op when the event or the callback is unknown. -/
def offBus (b : Bus) (e : String) (i : Nat) : Bus :=
  match busGet b e with
  | none => b
  | some l => busSet b e (removeFirst l i)

/-- Run one callback's body: its `off` calls, then its `on` calls (each
registering a fresh no-op callback).  The `throws` flag is handled by the
caller (`emitFrom`). -/
def invoke (b : Bus) (c : Cb) : Bus :=
  let b1 := c.unregs.foldl (fun acc p => offBus acc p.1 p.2) b
  c.regs.foldl (fun acc p => onBus acc p.1 (pureCb p.2)) b1

/-- One pass of `eventListeners.forEach(callback => callback(data))`,
following the ECMAScript `forEach` semantics: the length is read once
before the loop (the `fuel`), each index `k` is read from the *live*
array, a missing index is skipped, and an exception thrown by a callback
aborts the iteration and escapes.  Returns the final registry, the
deliveries `(callback id, payload)` in invocation order, and whether an
exception escaped. -/
def emitFrom (e : String) (p : String) :
    Bus → Nat → Nat → Bus × List (Nat × String) × Bool
  | b, _, 0 => (b, [], false)
  | b, k, fuel + 1 =>
    match (busGet b e).bind (fun l => l[k]?) with
    | none =>
      let r := emitFrom e p b (k + 1) fuel
      (r.1, r.2.1, r.2.2)
    | some c =>
      let b' := invoke b c
      if c.throws then (b', [(c.id, p)], true)
      else
        let r := emitFrom e p b' (k + 1) fuel
        (r.1, (c.id, p) :: r.2.1, r.2.2)

/-- `ApiClient.emit`: look the event up; if a listener array exists, iterate
it with `forEach`. -/
def emit (b : Bus) (e : String) (p : String) : Bus × List (Nat × String) × Bool :=
  match busGet b e with
  | none => (b, [], false)
  | some l => emitFrom e p b 0 l.length

/-! ### Registry lemmas -/

theorem busGet_busSet_ne (b : Bus) (e' e : String) (l : List Cb) (h : e' ≠ e) :
    busGet (busSet b e' l) e = busGet b e := by
  induction b with
  | nil => rfl
  | cons hd tl ih =>
    obtain ⟨k, v⟩ := hd
    by_cases hk : k = e'
    · subst hk
      simp [busSet, busGet, h]
    · simp only [busSet, if_neg hk, busGet]
      by_cases hke : k = e
      · simp [hke]
      · simp [hke, ih]

theorem busGet_busSet_eq (b : Bus) (e : String) (l l' : List Cb)
    (h : busGet b e = some l') : busGet (busSet b e l) e = some l := by
  induction b with
  | nil => simp [busGet] at h
  | cons hd tl ih =>
    obtain ⟨k, v⟩ := hd
    by_cases hk : k = e
    · subst hk
      simp [busSet, busGet]
    · simp only [busGet, if_neg hk] at h
      simp [busSet, busGet, hk, ih h]

theorem busGet_append_ne (b b' : Bus) (e : String) (h : busGet b e = none) :
    busGet (b ++ b') e = busGet b' e := by
  induction b with
  | nil => rfl
  | cons hd tl ih =>
    obtain ⟨k, v⟩ := hd
    by_cases hk : k = e
    · simp [busGet, hk] at h
    · simp only [busGet, if_neg hk] at h
      simp [busGet, hk, ih h]

theorem busGet_append_some (b b' : Bus) (e : String) (l : List Cb)
    (h : busGet b e = some l) : busGet (b ++ b') e = some l := by
  induction b with
  | nil => simp [busGet] at h
  | cons hd tl ih =>
    obtain ⟨k, v⟩ := hd
    by_cases hk : k = e
    · simp only [busGet, if_pos hk] at h
      simp [busGet, hk, h]
    · simp only [busGet, if_neg hk] at h
      simp [busGet, hk, ih h]

theorem busGet_onBus_ne (b : Bus) (e' e : String) (c : Cb) (h : e' ≠ e) :
    busGet (onBus b e' c) e = busGet b e := by
  unfold onBus
  cases hb : busGet b e' with
  | none =>
    cases hbe : busGet b e with
    | none => rw [busGet_append_ne b _ e hbe]; simp [busGet, h]
    | some l => rw [busGet_append_some b _ e l hbe]
  | some l => exact busGet_busSet_ne b e' e (l ++ [c]) h

theorem busGet_onBus_eq (b : Bus) (e : String) (c : Cb) (l : List Cb)
    (h : busGet b e = some l) : busGet (onBus b e c) e = some (l ++ [c]) := by
  unfold onBus
  rw [h]
  exact busGet_busSet_eq b e (l ++ [c]) l h

/-- Running a callback that performs no `off` calls can only append to the
event's listener array: the prefix registered before is untouched. -/
theorem invoke_extends (c : Cb) (hu : c.unregs = []) (e : String) :
    ∀ (b : Bus) (l extra : List Cb), busGet b e = some (l ++ extra) →
      ∃ extra', busGet (invoke b c) e = some (l ++ extra') := by
  unfold invoke
  rw [hu]
  simp only [List.foldl_nil]
  induction c.regs with
  | nil =>
    intro b l extra h
    exact ⟨extra, by simpa using h⟩
  | cons hd tl ih =>
    intro b l extra h
    obtain ⟨e', i⟩ := hd
    simp only [List.foldl_cons]
    by_cases he : e' = e
    · subst he
      exact ih (onBus b e' (pureCb i)) l (extra ++ [pureCb i])
        (by rw [busGet_onBus_eq b e' (pureCb i) _ h, List.append_assoc])
    · exact ih (onBus b e' (pureCb i)) l extra
        (by rw [busGet_onBus_ne b e' e (pureCb i) he]; exact h)

/-- Core delivery lemma: when every callback of the pass performs no `off`
call and does not throw, the `forEach` pass from index `k` delivers to
exactly the remaining start-of-emit listeners, in order, with no escaping
exception — any `on` calls they make only append past the cached length. -/
theorem emitFrom_pure (e : String) (p : String) (l : List Cb)
    (hl : ∀ c ∈ l, c.unregs = [] ∧ c.throws = false) :
    ∀ (fuel k : Nat) (b : Bus) (extra : List Cb),
      busGet b e = some (l ++ extra) → k + fuel = l.length →
      (emitFrom e p b k fuel).2.1 = (l.drop k).map (fun c => (c.id, p)) ∧
      (emitFrom e p b k fuel).2.2 = false := by
  intro fuel
  induction fuel with
  | zero =>
    intro k b extra hb hk
    rw [Nat.add_zero] at hk
    simp [emitFrom, hk, List.drop_length]
  | succ n ih =>
    intro k b extra hb hk
    have hklt : k < l.length := by omega
    have hidx : (l ++ extra)[k]? = some (l.get ⟨k, hklt⟩) := by
      rw [List.getElem?_append_left hklt]
      simp [List.getElem?_eq_getElem hklt]
    have hmem : l.get ⟨k, hklt⟩ ∈ l := List.get_mem l k hklt
    obtain ⟨hu, ht⟩ := hl _ hmem
    obtain ⟨extra', hb'⟩ :=
      invoke_extends (l.get ⟨k, hklt⟩) hu e b l extra hb
    have ihk : k + 1 + n = l.length := by omega
    obtain ⟨ih1, ih2⟩ := ih (k + 1) (invoke b (l.get ⟨k, hklt⟩)) extra' hb' ihk
    have hdrop : l.drop k = l.get ⟨k, hklt⟩ :: l.drop (k + 1) :=
      List.drop_eq_getElem_cons hklt
    simp only [emitFrom, hb, Option.some_bind, hidx, ht, Bool.false_eq_true, if_false, ih1, ih2,
      hdrop, List.map_cons]
    exact ⟨trivial, trivial⟩

/-- Throw lemma: when the callbacks before position `k₀ = pre.length` are
benign and the callback there throws, the pass delivers to the prefix and
to the throwing callback, then aborts with the exception escaping. -/
theorem emitFrom_throw (e : String) (p : String) (pre : List Cb) (c : Cb) (post : List Cb)
    (hpre : ∀ c' ∈ pre, c'.unregs = [] ∧ c'.throws = false) (hc : c.throws = true) :
    ∀ (fuel k : Nat) (b : Bus) (extra : List Cb),
      busGet b e = some ((pre ++ c :: post) ++ extra) →
      k + fuel = (pre ++ c :: post).length → k ≤ pre.length →
      (emitFrom e p b k fuel).2.1 =
        ((pre.drop k).map (fun c' => (c'.id, p))) ++ [(c.id, p)] ∧
      (emitFrom e p b k fuel).2.2 = true := by
  intro fuel
  induction fuel with
  | zero =>
    intro k b extra hb hk hkpre
    simp only [List.length_append, List.length_cons] at hk
    omega
  | succ n ih =>
    intro k b extra hb hk hkpre
    by_cases hke : k = pre.length
    · subst hke
      have hidx : ((pre ++ c :: post) ++ extra)[pre.length]? = some c := by
        rw [List.append_assoc, List.getElem?_append_right (Nat.le_refl _)]
        simp
      simp only [emitFrom, hb, Option.some_bind, hidx, hc, if_true, List.drop_length,
        List.map_nil, List.nil_append]
      exact ⟨trivial, trivial⟩
    · have hklt : k < pre.length := by omega
      have hkltL : k < (pre ++ c :: post).length := by
        simp only [List.length_append, List.length_cons]; omega
      have hidx : ((pre ++ c :: post) ++ extra)[k]? = some (pre.get ⟨k, hklt⟩) := by
        rw [List.getElem?_append_left hkltL, List.getElem?_append_left hklt]
        simp [List.getElem?_eq_getElem hklt]
      have hmem : pre.get ⟨k, hklt⟩ ∈ pre := List.get_mem pre k hklt
      obtain ⟨hu, ht⟩ := hpre _ hmem
      obtain ⟨extra', hb'⟩ :=
        invoke_extends (pre.get ⟨k, hklt⟩) hu e b (pre ++ c :: post) extra hb
      obtain ⟨ih1, ih2⟩ := ih (k + 1) (invoke b (pre.get ⟨k, hklt⟩)) extra' hb'
        (by omega) (by omega)
      have hdrop : pre.drop k = pre.get ⟨k, hklt⟩ :: pre.drop (k + 1) :=
        List.drop_eq_getElem_cons hklt
      simp only [emitFrom, hb, Option.some_bind, hidx, ht, Bool.false_eq_true, if_false,
        ih1, ih2, hdrop, List.map_cons, List.cons_append]
      exact ⟨trivial, trivial⟩

/-- Shared corollary of `emitFrom_pure` at `k = 0`: a pass over benign
callbacks delivers to all of them in order without an escaping exception. -/
theorem emit_pure_spec (b : Bus) (e p : String) (l : List Cb)
    (hb : busGet b e = some l)
    (hl : ∀ c ∈ l, c.unregs = [] ∧ c.throws = false) :
    (emit b e p).2.1 = l.map (fun c => (c.id, p)) ∧ (emit b e p).2.2 = false := by
  unfold emit
  rw [hb]
  simpa using emitFrom_pure e p l hl l.length 0 b [] (by simpa using hb) (by simp)

/-- **C1, as stated, is false.**  The spec claims `emit` snapshots the
listener list, so a callback unregistering itself mid-dispatch does not
affect the current pass.  In the source, `emit` runs `forEach` over the
live array: with two listeners `0` and `1` registered for `"x"` and
listener `0` unregistering itself when invoked, the splice shifts listener
`1` to the already-visited index 0, and only listener `0` receives the
payload — listener `1`, registered at emit start, is skipped. -/
theorem emit_self_unregister_skips_listener :
    busGet [("x", [⟨0, [("x", 0)], [], false⟩, pureCb 1])] "x" =
      some [⟨0, [("x", 0)], [], false⟩, pureCb 1] ∧
    (emit [("x", [⟨0, [("x", 0)], [], false⟩, pureCb 1])] "x" "p").2.1 = [(0, "p")] ∧
    [((0 : Nat), "p")] ≠ [(0, "p"), (1, "p")] := by
  refine ⟨rfl, rfl, by simp⟩

/-- **C1 (amended).**  `emit` iterates the live listener array, not a
snapshot.  Provided no callback of the pass unregisters anything or throws
(registering new callbacks is allowed), `emit` delivers the payload to
exactly the callbacks registered for the event at emit start, each exactly
once and in registration order, with no escaping exception; callbacks
registered mid-dispatch do not receive the current payload (the `forEach`
length is cached at emit start), so such registrations affect only future
emits.  A mid-dispatch *unregistration*, however, shifts the live array and
can skip a not-yet-visited listener. -/
theorem emit_no_unregister_delivers_in_order (b : Bus) (e p : String) (l : List Cb)
    (hb : busGet b e = some l)
    (hl : ∀ c ∈ l, c.unregs = [] ∧ c.throws = false) :
    (emit b e p).2.1 = l.map (fun c => (c.id, p)) ∧ (emit b e p).2.2 = false :=
  emit_pure_spec b e p l hb hl

/-- Witness for the amended C1 theorem: two benign listeners, the second of
which registers a third mid-dispatch; both initial listeners receive the
payload, in order, and nothing escapes. -/
theorem emit_no_unregister_delivers_in_order_witness :
    (emit [("x", [pureCb 0, ⟨1, [], [("x", 2)], false⟩])] "x" "p").2.1 =
      [(0, "p"), (1, "p")] ∧
    (emit [("x", [pureCb 0, ⟨1, [], [("x", 2)], false⟩])] "x" "p").2.2 = false := by
  have h := emit_no_unregister_delivers_in_order
    [("x", [pureCb 0, ⟨1, [], [("x", 2)], false⟩])] "x" "p"
    [pureCb 0, ⟨1, [], [("x", 2)], false⟩] rfl
    (by intro c hc; simp [pureCb] at hc; rcases hc with h1 | h1 <;> simp [h1])
  simpa [pureCb] using h

/-- **C6, as stated, is false.**  The spec claims a throwing callback does
not prevent delivery to subsequent callbacks and that no exception escapes
`emit`.  The source's `emit` has no try/catch: with listeners `0` (throws)
and `1` registered for `"x"`, listener `1` is never invoked and the
exception escapes `emit` to its caller. -/
theorem emit_throwing_listener_stops_dispatch :
    (emit [("x", [⟨0, [], [], true⟩, pureCb 1])] "x" "p").2.1 = [(0, "p")] ∧
    (emit [("x", [⟨0, [], [], true⟩, pureCb 1])] "x" "p").2.2 = true := by
  exact ⟨rfl, rfl⟩

/-- **C6 (amended).**  There is no per-listener failure isolation: when the
listeners before some position are benign and the listener at that position
throws, `emit` delivers the payload to that prefix and to the throwing
listener, then aborts — every later listener is skipped and the exception
escapes `emit` to its caller. -/
theorem emit_throw_aborts_rest (b : Bus) (e p : String) (pre : List Cb) (c : Cb)
    (post : List Cb) (hb : busGet b e = some (pre ++ c :: post))
    (hpre : ∀ c' ∈ pre, c'.unregs = [] ∧ c'.throws = false)
    (hc : c.throws = true) :
    (emit b e p).2.1 = pre.map (fun c' => (c'.id, p)) ++ [(c.id, p)] ∧
    (emit b e p).2.2 = true := by
  unfold emit
  rw [hb]
  simpa using emitFrom_throw e p pre c post hpre hc (pre ++ c :: post).length 0 b []
    (by simpa using hb) (by simp) (by simp)

/-- Witness for the amended C6 theorem at a concrete bus: benign listener
`0`, throwing listener `1`, benign listener `2`; delivery reaches `0` and
`1` only and the exception escapes. -/
theorem emit_throw_aborts_rest_witness :
    (emit [("x", [pureCb 0, ⟨1, [], [], true⟩, pureCb 2])] "x" "p").2.1 =
      [(0, "p"), (1, "p")] ∧
    (emit [("x", [pureCb 0, ⟨1, [], [], true⟩, pureCb 2])] "x" "p").2.2 = true := by
  have h := emit_throw_aborts_rest [("x", [pureCb 0, ⟨1, [], [], true⟩, pureCb 2])]
    "x" "p" [pureCb 0] ⟨1, [], [], true⟩ [pureCb 2] rfl
    (by intro c hc; simp [pureCb] at hc; simp [hc])
    rfl
  simpa [pureCb] using h

/-! ## WebSocket lifecycle (`connectWebSocket` / `disconnectWebSocket`)

Sockets are identified by creation index into `socks`; a socket's
`readyState` is `connecting`, `opened` or `closed`.  `ws` is the
`this.ws` handle.  `pendingClose` queues `close` events whose `onclose`
handler has not yet run on the event loop; `pendingReconnect` counts
scheduled `setTimeout(() => this.connectWebSocket(), 5000)` timers.  The
source keeps no handle to these timers, so nothing can cancel them. -/

inductive SockState where
  | connecting
  | opened
  | closed
  deriving Repr, DecidableEq

structure WSClient where
  hasUrl : Bool
  ws : Option Nat
  socks : List SockState
  pendingClose : List Nat
  pendingReconnect : Nat
  deriving Repr, DecidableEq

/-- `this.ws?.readyState === WebSocket.OPEN`. -/
def wsIsOpen (s : WSClient) : Bool :=
  match s.ws with
  | none => false
  | some i => s.socks[i]? = some SockState.opened

/-- `ApiClient.connectWebSocket`: return early when `wsUrl` is falsy or the
current socket is `OPEN`; otherwise construct a new `WebSocket` (state
`CONNECTING`) and overwrite `this.ws` — any previous non-open socket is
orphaned, not closed. -/
def connectWebSocket (s : WSClient) : WSClient :=
  if !s.hasUrl || wsIsOpen s then s
  else { s with ws := some s.socks.length, socks := s.socks ++ [SockState.connecting] }

/-- `ApiClient.disconnectWebSocket`: if a handle exists, `ws.close()` (the
socket transitions to closed and its `close` event is queued; the handler
stays attached) and `this.ws = null`.  No timer is touched. -/
def disconnectWebSocket (s : WSClient) : WSClient :=
  match s.ws with
  | none => s
  | some i =>
    { s with socks := s.socks.set i SockState.closed,
             ws := none,
             pendingClose := s.pendingClose ++ [i] }

/-- Event-loop step: the oldest queued `close` event fires and runs the
`onclose` handler, which schedules `setTimeout(() => this.connectWebSocket(),
5000)` — one more pending reconnect timer. -/
def fireClose (s : WSClient) : WSClient :=
  match s.pendingClose with
  | [] => s
  | _ :: rest =>
    { s with pendingClose := rest, pendingReconnect := s.pendingReconnect + 1 }

/-- Event-loop step: a pending 5-second reconnect timer fires and calls
`connectWebSocket`. -/
def fireReconnect (s : WSClient) : WSClient :=
  match s.pendingReconnect with
  | 0 => s
  | n + 1 => connectWebSocket { s with pendingReconnect := n }

/-- Event-loop step: a connecting socket's `open` event fires. -/
def fireOpen (s : WSClient) (i : Nat) : WSClient :=
  if s.socks[i]? = some SockState.connecting then
    { s with socks := s.socks.set i SockState.opened }
  else s

/-- **C2, as stated, is false.**  From a connected state (one open socket,
no pending events), `disconnectWebSocket` is called; the closed socket's
`onclose` event then fires, scheduling a reconnect timer; when that timer
fires — 5 s later, well within twice the 5 s delay — `connectWebSocket`
runs with `ws === null` and creates a brand-new socket.  The state is not
terminal: a reconnect attempt does occur. -/
theorem disconnect_then_reconnect_occurs :
    (fireReconnect (fireClose (disconnectWebSocket
        ⟨true, some 0, [SockState.opened], [], 0⟩))).socks.length = 2 ∧
    (fireReconnect (fireClose (disconnectWebSocket
        ⟨true, some 0, [SockState.opened], [], 0⟩))).ws = some 1 := by
  exact ⟨rfl, rfl⟩

/-- **C2 (amended).**  `disconnectWebSocket` closes the active socket and
nulls the handle, but it cancels no timers and leaves the `onclose`
handler attached; for every configuration with a `wsUrl` and an open
socket, after `disconnect` the queued `close` event schedules a reconnect
whose timer creates a fresh socket 5 seconds later — `Disconnected` is not
terminal. -/
theorem disconnect_not_terminal (s : WSClient) (i : Nat)
    (hurl : s.hasUrl = true) (hws : s.ws = some i)
    (hopen : s.socks[i]? = some SockState.opened) :
    (disconnectWebSocket s).ws = none ∧
    (disconnectWebSocket s).socks[i]? = some SockState.closed ∧
    (fireReconnect (fireClose (disconnectWebSocket s))).ws = some s.socks.length ∧
    (fireReconnect (fireClose (disconnectWebSocket s))).socks.length =
      s.socks.length + 1 := by
  have hilt : i < s.socks.length := by
    by_contra hge
    rw [List.getElem?_eq_none_iff.mpr (by omega)] at hopen
    cases hopen
  have hd : disconnectWebSocket s =
      { s with socks := s.socks.set i SockState.closed, ws := none,
               pendingClose := s.pendingClose ++ [i] } := by
    simp [disconnectWebSocket, hws]
  have hfc : fireClose (disconnectWebSocket s) =
      { s with socks := s.socks.set i SockState.closed, ws := none,
               pendingClose := (s.pendingClose ++ [i]).tail,
               pendingReconnect := s.pendingReconnect + 1 } := by
    rw [hd]
    cases hpc : s.pendingClose with
    | nil => simp [fireClose]
    | cons x rest => simp [fireClose]
  have hfr : fireReconnect (fireClose (disconnectWebSocket s)) =
      { s with socks := (s.socks.set i SockState.closed) ++ [SockState.connecting],
               ws := some s.socks.length,
               pendingClose := (s.pendingClose ++ [i]).tail,
               pendingReconnect := s.pendingReconnect } := by
    rw [hfc]
    simp [fireReconnect, connectWebSocket, wsIsOpen, hurl]
  refine ⟨by rw [hd], ?_, by rw [hfr], by rw [hfr]; simp⟩
  rw [hd]
  simpa using List.getElem?_set_self hilt

/-- Witness for the amended C2 theorem: a connected client with one open
socket; after `disconnect`, the queued close event and the 5-second timer
produce a second socket. -/
theorem disconnect_not_terminal_witness :
    (disconnectWebSocket ⟨true, some 0, [SockState.opened], [], 0⟩).ws = none ∧
    (disconnectWebSocket ⟨true, some 0, [SockState.opened], [], 0⟩).socks[0]? =
      some SockState.closed ∧
    (fireReconnect (fireClose (disconnectWebSocket
        ⟨true, some 0, [SockState.opened], [], 0⟩))).ws = some 1 ∧
    (fireReconnect (fireClose (disconnectWebSocket
        ⟨true, some 0, [SockState.opened], [], 0⟩))).socks.length = 1 + 1 :=
  disconnect_not_terminal ⟨true, some 0, [SockState.opened], [], 0⟩ 0 rfl rfl rfl

/-- **C7, as stated, is false.**  `connectWebSocket`'s guard returns early
only when `this.ws?.readyState === WebSocket.OPEN`.  Starting from a fresh
client with a `wsUrl`, one `connect()` leaves the socket `Connecting`; a
second `connect()` while `Connecting` is *not* a no-op: it constructs a
second `WebSocket` (two sockets now exist, the first orphaned), and the
resulting state differs from the one-call state. -/
theorem connect_while_connecting_creates_second_socket :
    (connectWebSocket ⟨true, none, [], [], 0⟩).socks = [SockState.connecting] ∧
    (connectWebSocket (connectWebSocket ⟨true, none, [], [], 0⟩)).socks.length = 2 ∧
    connectWebSocket (connectWebSocket ⟨true, none, [], [], 0⟩) ≠
      connectWebSocket ⟨true, none, [], [], 0⟩ := by
  refine ⟨rfl, rfl, by decide⟩

/-- **C7 (amended).**  `connectWebSocket` is a no-op only when the current
socket is `Open` (or no `wsUrl` is configured): while `Open`, any further
`connect()` returns early, so calling it twice while `Open` leaves the
client unchanged and exactly one socket in existence.  While `Connecting`,
a further `connect()` instead creates a second socket. -/
theorem connect_noop_when_open (s : WSClient) (h : wsIsOpen s = true) :
    connectWebSocket s = s ∧ connectWebSocket (connectWebSocket s) = s := by
  have h1 : connectWebSocket s = s := by
    unfold connectWebSocket
    rw [h]
    simp
  exact ⟨h1, by rw [h1, h1]⟩

/-- Witness for the amended C7 theorem: a client whose socket 0 is open. -/
theorem connect_noop_when_open_witness :
    connectWebSocket ⟨true, some 0, [SockState.opened], [], 0⟩ =
      ⟨true, some 0, [SockState.opened], [], 0⟩ ∧
    connectWebSocket (connectWebSocket ⟨true, some 0, [SockState.opened], [], 0⟩) =
      ⟨true, some 0, [SockState.opened], [], 0⟩ :=
  connect_noop_when_open ⟨true, some 0, [SockState.opened], [], 0⟩ (by decide)

/-! ## Inbound frames (`ws.onmessage`)

`JSON.parse(event.data)` either throws (a malformed frame, modelled
`none`) or yields the envelope `{type, data}` (modelled `some ⟨type,
data⟩`).  The whole handler body — parse *and* the `emit` — is inside
`try { … } catch { console.error(…) }`, so the handler always returns
normally; it never touches the socket. -/

structure Envelope where
  type : String
  data : String
  deriving Repr, DecidableEq

/-- The `onmessage` handler: a malformed frame is logged and dropped; a
parsed envelope is republished via `emit(message.type, message.data)`.
Any exception a listener throws out of `emit` is caught by the same
`catch`, so the handler is total either way. -/
def onMessage (b : Bus) (frame : Option Envelope) : Bus × List (Nat × String) :=
  match frame with
  | none => (b, [])
  | some env =>
    let r := emit b env.type env.data
    (r.1, r.2.1)

/-- The stream manager's full state: the connection and the listener
registry it republishes into. -/
structure StreamState where
  conn : WSClient
  bus : Bus
  deriving Repr, DecidableEq

/-- Deliver one inbound frame: only the bus can change; the connection is
never touched by `onmessage`. -/
def handleFrame (st : StreamState) (frame : Option Envelope) :
    StreamState × List (Nat × String) :=
  let r := onMessage st.bus frame
  (⟨st.conn, r.1⟩, r.2)

/-- Deliver a sequence of inbound frames, concatenating the deliveries. -/
def handleFrames (st : StreamState) :
    List (Option Envelope) → StreamState × List (Nat × String)
  | [] => (st, [])
  | f :: rest =>
    let r := handleFrame st f
    let r' := handleFrames r.1 rest
    (r'.1, r.2 ++ r'.2)

/-- **C8 (confirmed).**  A malformed inbound frame (e.g. the frame `"{"`,
whose `JSON.parse` throws) is dropped with the whole state unchanged and
nothing delivered — no exception escapes, the connection is not
terminated — and a subsequent valid `telemetry` envelope is still
delivered through `EventBus.emit(envelope.type, envelope.data)` to every
`telemetry` subscriber, in registration order. -/
theorem malformed_frame_dropped_valid_still_delivered (st : StreamState)
    (l : List Cb) (d : String)
    (hb : busGet st.bus "telemetry" = some l)
    (hl : ∀ c ∈ l, c.unregs = [] ∧ c.throws = false) :
    handleFrame st none = (st, []) ∧
    (handleFrames st [none, some ⟨"telemetry", d⟩]).1.conn = st.conn ∧
    (handleFrames st [none, some ⟨"telemetry", d⟩]).2 =
      l.map (fun c => (c.id, d)) := by
  obtain ⟨h1, _⟩ := emit_pure_spec st.bus "telemetry" d l hb hl
  refine ⟨rfl, rfl, ?_⟩
  simp [handleFrames, handleFrame, onMessage, h1]

/-- Witness for C8: connection open, two benign `telemetry` subscribers;
the malformed frame is dropped and the valid one reaches both. -/
theorem malformed_frame_dropped_valid_still_delivered_witness :
    handleFrame ⟨⟨true, some 0, [SockState.opened], [], 0⟩,
        [("telemetry", [pureCb 3, pureCb 7])]⟩ none =
      (⟨⟨true, some 0, [SockState.opened], [], 0⟩,
        [("telemetry", [pureCb 3, pureCb 7])]⟩, []) ∧
    (handleFrames ⟨⟨true, some 0, [SockState.opened], [], 0⟩,
        [("telemetry", [pureCb 3, pureCb 7])]⟩
      [none, some ⟨"telemetry", "t42"⟩]).1.conn =
      ⟨true, some 0, [SockState.opened], [], 0⟩ ∧
    (handleFrames ⟨⟨true, some 0, [SockState.opened], [], 0⟩,
        [("telemetry", [pureCb 3, pureCb 7])]⟩
      [none, some ⟨"telemetry", "t42"⟩]).2 = [(3, "t42"), (7, "t42")] := by
  have h := malformed_frame_dropped_valid_still_delivered
    ⟨⟨true, some 0, [SockState.opened], [], 0⟩,
      [("telemetry", [pureCb 3, pureCb 7])]⟩ [pureCb 3, pureCb 7] "t42" rfl
    (by intro c hc; simp [pureCb] at hc; rcases hc with h1 | h1 <;> simp [h1])
  simpa [pureCb] using h

/-! ## Retrying request executor (`ApiClient.request`)

An attempt's interaction with the network is an oracle `outs : Nat →
Outcome` giving, per attempt index, what `fetch` does: resolve with an ok
response whose body parses (`ok`), resolve with a non-2xx response
(`httpErr`), resolve ok but with a body `response.json()` rejects
(`badJson`), or reject outright (`transport`).  Each outcome carries the
attempt's wall-clock duration in ms; instants (`Date.now()`,
`lastUpdated`) are ms since the request started. -/

structure ApiConfig where
  baseUrl : String
  wsUrl : Option String
  timeout : Nat
  retryAttempts : Nat
  deriving Repr, DecidableEq

/-- `const defaultConfig` of the source (with the fallback URLs). -/
def defaultConfig : ApiConfig :=
  ⟨"http://localhost:8000", some "ws://localhost:8000/ws", 10000, 3⟩

structure ConnectionStatus where
  connected : Bool
  lastUpdated : Nat
  latency : Nat
  errorCount : Nat
  deriving Repr, DecidableEq

/-- `private connectionStatus = { connected: false, lastUpdated: '',
latency: 0, errorCount: 0 }`. -/
def initialStatus : ConnectionStatus := ⟨false, 0, 0, 0⟩

inductive Outcome where
  | ok (dur : Nat)
  | httpErr (code : Nat) (statusText : String) (dur : Nat)
  | badJson (msg : String) (dur : Nat)
  | transport (msg : String) (dur : Nat)
  deriving Repr, DecidableEq

def isOk : Outcome → Bool
  | .ok _ => true
  | _ => false

def isTransport : Outcome → Bool
  | .transport _ _ => true
  | _ => false

/-- The `error.message` the catch block ends up with for a failing outcome
(an `ok` outcome reaches no catch; the `""` is never used). -/
def errMsg : Outcome → String
  | .ok _ => ""
  | .httpErr code text _ => "HTTP " ++ toString code ++ ": " ++ text
  | .badJson msg _ => msg
  | .transport msg _ => msg

/-- `ApiClient.updateConnectionStatus`.  The source writes `latency:
latency || this.connectionStatus.latency`, so an absent *or zero* latency
keeps the previous value, and `errorCount: connected ? 0 :
this.connectionStatus.errorCount`.  (The method also emits a
`connection_status` event; the claims here concern only the stored
state.) -/
def updateConnectionStatus (st : ConnectionStatus) (connected : Bool)
    (latency : Option Nat) (now : Nat) : ConnectionStatus :=
  { connected := connected,
    lastUpdated := now,
    latency := match latency with
               | some v => if v = 0 then st.latency else v
               | none => st.latency,
    errorCount := if connected then 0 else st.errorCount }

inductive ApiResult where
  | success
  | failure (error : String)
  deriving Repr, DecidableEq

/-- Observable outcome of one `request` call: the resolved result, the
final connection status, the backoff delays slept (in order), and how
many attempts were made. -/
structure RunResult where
  result : ApiResult
  status : ConnectionStatus
  delays : List Nat
  attempts : Nat
  deriving Repr, DecidableEq

/-- The body of `for (let attempt = 0; attempt <= retryAttempts;
attempt++)`, one iteration per fuel unit starting at attempt `i`.  On a
resolved response the latency is measured (`Date.now() - startTime`) and
`updateConnectionStatus(true, latency)` runs *before* `response.ok` is
checked; a non-ok response then throws into the catch, which increments
`errorCount`, and either returns the failure (last attempt) after
`updateConnectionStatus(false)`, or sleeps `Math.pow(2, attempt) * 1000`
ms and retries.  The fuel-exhausted line is the source's unreachable
`return { success: false, error: 'Max retries exceeded' }`. -/
def requestLoop (retry : Nat) (outs : Nat → Outcome) :
    Nat → Nat → Nat → ConnectionStatus → RunResult
  | 0, _, _, st => ⟨.failure "Max retries exceeded", st, [], 0⟩
  | fuel + 1, i, elapsed, st =>
    match outs i with
    | .ok dur =>
      let e := elapsed + dur
      ⟨.success, updateConnectionStatus st true (some e) e, [], 1⟩
    | .httpErr code text dur =>
      let e := elapsed + dur
      let st1 := updateConnectionStatus st true (some e) e
      let st2 := { st1 with errorCount := st1.errorCount + 1 }
      if i = retry then
        ⟨.failure ("HTTP " ++ toString code ++ ": " ++ text),
         updateConnectionStatus st2 false none e, [], 1⟩
      else
        let d := 2 ^ i * 1000
        let r := requestLoop retry outs fuel (i + 1) (e + d) st2
        ⟨r.result, r.status, d :: r.delays, r.attempts + 1⟩
    | .badJson msg dur =>
      let e := elapsed + dur
      let st1 := updateConnectionStatus st true (some e) e
      let st2 := { st1 with errorCount := st1.errorCount + 1 }
      if i = retry then
        ⟨.failure msg, updateConnectionStatus st2 false none e, [], 1⟩
      else
        let d := 2 ^ i * 1000
        let r := requestLoop retry outs fuel (i + 1) (e + d) st2
        ⟨r.result, r.status, d :: r.delays, r.attempts + 1⟩
    | .transport msg dur =>
      let e := elapsed + dur
      let st2 := { st with errorCount := st.errorCount + 1 }
      if i = retry then
        ⟨.failure msg, updateConnectionStatus st2 false none e, [], 1⟩
      else
        let d := 2 ^ i * 1000
        let r := requestLoop retry outs fuel (i + 1) (e + d) st2
        ⟨r.result, r.status, d :: r.delays, r.attempts + 1⟩

/-- `ApiClient.request`: run the attempt loop from attempt 0 with the
configured `retryAttempts`.  Note the loop never reads `cfg.timeout`
(nor `cfg.baseUrl` beyond building the URL string). -/
def request (cfg : ApiConfig) (outs : Nat → Outcome) (st : ConnectionStatus) :
    RunResult :=
  requestLoop cfg.retryAttempts outs (cfg.retryAttempts + 1) 0 0 st

/-- All-failure run lemma: with no attempt succeeding, the loop from
attempt `i` makes exactly `fuel` further attempts, sleeps `2^j * 1000` ms
after each non-final attempt `j`, and returns the failure message of the
last attempt (index `retry`). -/
theorem requestLoop_allFail (retry : Nat) (outs : Nat → Outcome)
    (hf : ∀ j, isOk (outs j) = false) :
    ∀ (fuel i elapsed : Nat) (st : ConnectionStatus),
      i + fuel = retry + 1 → 0 < fuel →
      (requestLoop retry outs fuel i elapsed st).result =
        ApiResult.failure (errMsg (outs retry)) ∧
      (requestLoop retry outs fuel i elapsed st).attempts = fuel ∧
      (requestLoop retry outs fuel i elapsed st).delays =
        (List.range' i (fuel - 1)).map (fun j => 2 ^ j * 1000) := by
  intro fuel
  induction fuel with
  | zero => intro i elapsed st _ h0; omega
  | succ n ih =>
    intro i elapsed st hi _
    by_cases hlast : i = retry
    · have hn : n = 0 := by omega
      subst hlast hn
      cases houts : outs i with
      | ok dur => have := hf i; rw [houts] at this; simp [isOk] at this
      | httpErr code text dur =>
        simp [requestLoop, houts, errMsg]
      | badJson msg dur =>
        simp [requestLoop, houts, errMsg]
      | transport msg dur =>
        simp [requestLoop, houts, errMsg]
    · have hn : n = (n - 1) + 1 := by omega
      have hrange : List.range' i n = i :: List.range' (i + 1) (n - 1) := by
        conv_lhs => rw [hn]
        rw [List.range'_succ]
      cases houts : outs i with
      | ok dur => have := hf i; rw [houts] at this; simp [isOk] at this
      | httpErr code text dur =>
        simp [requestLoop, houts, hlast, hrange]
        exact ⟨(ih _ _ _ (by omega) (by omega)).1,
          (ih _ _ _ (by omega) (by omega)).2.1,
          (ih _ _ _ (by omega) (by omega)).2.2⟩
      | badJson msg dur =>
        simp [requestLoop, houts, hlast, hrange]
        exact ⟨(ih _ _ _ (by omega) (by omega)).1,
          (ih _ _ _ (by omega) (by omega)).2.1,
          (ih _ _ _ (by omega) (by omega)).2.2⟩
      | transport msg dur =>
        simp [requestLoop, houts, hlast, hrange]
        exact ⟨(ih _ _ _ (by omega) (by omega)).1,
          (ih _ _ _ (by omega) (by omega)).2.1,
          (ih _ _ _ (by omega) (by omega)).2.2⟩

/-- **C5 (confirmed).**  With `retryAttempts = N` and every attempt
failing, `request` makes exactly `N + 1` attempts, sleeps `base * 2^i` ms
(`base = 1000`) before attempt `i + 1` — delays strictly increasing — and
resolves to a failure carrying the last attempt's error message. -/
theorem retry_exhaustion_spec (cfg : ApiConfig) (outs : Nat → Outcome)
    (st : ConnectionStatus) (hf : ∀ j, isOk (outs j) = false) :
    (request cfg outs st).result =
      ApiResult.failure (errMsg (outs cfg.retryAttempts)) ∧
    (request cfg outs st).attempts = cfg.retryAttempts + 1 ∧
    (request cfg outs st).delays =
      (List.range cfg.retryAttempts).map (fun i => 2 ^ i * 1000) ∧
    (request cfg outs st).delays.Pairwise (· < ·) := by
  obtain ⟨h1, h2, h3⟩ := requestLoop_allFail cfg.retryAttempts outs hf
    (cfg.retryAttempts + 1) 0 0 st (by omega) (by omega)
  rw [List.range_eq_range']
  have h3' : (request cfg outs st).delays =
      (List.range' 0 cfg.retryAttempts).map (fun j => 2 ^ j * 1000) := by
    simpa using h3
  refine ⟨h1, h2, h3', ?_⟩
  rw [h3', ← List.range_eq_range', List.pairwise_map]
  refine (List.pairwise_lt_range cfg.retryAttempts).imp ?_
  intro a b hab
  have hp : (2 : Nat) ^ a < 2 ^ b := Nat.pow_lt_pow_right (by omega) hab
  omega

/-- Witness for C5, scenario A of the spec: `retryAttempts = 3`, every
attempt a transport failure — 4 attempts, delays 1000, 2000, 4000 ms,
failure carrying the last error's message. -/
theorem retry_exhaustion_spec_witness :
    (request defaultConfig (fun _ => Outcome.transport "Failed to fetch" 50)
      initialStatus).result = ApiResult.failure "Failed to fetch" ∧
    (request defaultConfig (fun _ => Outcome.transport "Failed to fetch" 50)
      initialStatus).attempts = 4 ∧
    (request defaultConfig (fun _ => Outcome.transport "Failed to fetch" 50)
      initialStatus).delays = [1000, 2000, 4000] := by
  obtain ⟨h1, h2, h3, _⟩ := retry_exhaustion_spec defaultConfig
    (fun _ => Outcome.transport "Failed to fetch" 50) initialStatus
    (fun _ => rfl)
  exact ⟨h1, h2, by rw [h3]; rfl⟩

/-- **C3, as stated, is false.**  With the source's `defaultConfig`
(`timeout: 10000`), a first attempt that takes 999 999 ms — far past the
configured timeout — and then resolves ok is returned as a success after
one attempt: it is not aborted, not treated as a transport failure, and
takes no retry path, because `request` never reads `config.timeout`. -/
theorem slow_attempt_not_timed_out :
    defaultConfig.timeout = 10000 ∧
    (request defaultConfig (fun _ => Outcome.ok 999999) initialStatus).result =
      ApiResult.success ∧
    (request defaultConfig (fun _ => Outcome.ok 999999) initialStatus).attempts = 1 := by
  exact ⟨rfl, rfl, rfl⟩

/-- **C3 (amended).**  The `timeout` configuration option is accepted but
never applied: no attempt is bounded, the entire observable outcome of
`request` is identical for every `timeout` value, and an arbitrarily slow
successful attempt still resolves as a success. -/
theorem timeout_config_unused (cfg : ApiConfig) (outs : Nat → Outcome)
    (st : ConnectionStatus) (t dur : Nat) :
    request { cfg with timeout := t } outs st = request cfg outs st ∧
    (request cfg (fun _ => Outcome.ok dur) st).result = ApiResult.success := by
  exact ⟨rfl, rfl⟩

/-- **C4, as stated, is false.**  With `retryAttempts = 1` and both
attempts resolving as HTTP 500, there are `k = 2` consecutive failed
attempts since the last success, yet the final `errorCount` is 1, not 2:
`updateConnectionStatus(true, latency)` runs on *every* resolved response
— before `response.ok` is checked — and resets `errorCount` to 0, after
which the catch increments it back to 1. -/
theorem errorCount_reset_by_http_failure :
    (request { defaultConfig with retryAttempts := 1 }
      (fun _ => Outcome.httpErr 500 "Internal Server Error" 10)
      initialStatus).attempts = 2 ∧
    (request { defaultConfig with retryAttempts := 1 }
      (fun _ => Outcome.httpErr 500 "Internal Server Error" 10)
      initialStatus).status.errorCount = 1 ∧
    (1 : Nat) ≠ 2 := by
  refine ⟨rfl, rfl, by omega⟩

/-- Growth lemma for transport-only failure streaks: each iteration adds
exactly one to `errorCount` (no response ever arrives to reset it). -/
theorem requestLoop_transport_errorCount (retry : Nat) (outs : Nat → Outcome)
    (hf : ∀ j, isTransport (outs j) = true) :
    ∀ (fuel i elapsed : Nat) (st : ConnectionStatus), i + fuel = retry + 1 →
      (requestLoop retry outs fuel i elapsed st).status.errorCount =
        st.errorCount + fuel := by
  intro fuel
  induction fuel with
  | zero => intro i elapsed st _; simp [requestLoop]
  | succ n ih =>
    intro i elapsed st hi
    cases houts : outs i with
    | ok dur => have := hf i; rw [houts] at this; simp [isTransport] at this
    | httpErr code text dur =>
      have := hf i; rw [houts] at this; simp [isTransport] at this
    | badJson msg dur =>
      have := hf i; rw [houts] at this; simp [isTransport] at this
    | transport msg dur =>
      by_cases hlast : i = retry
      · have hn : n = 0 := by omega
        subst hn
        subst hlast
        simp [requestLoop, houts, updateConnectionStatus]
      · have := ih (i + 1) (elapsed + dur + 2 ^ i * 1000)
          { st with errorCount := st.errorCount + 1 } (by omega)
        simp only [requestLoop, houts, if_neg hlast]
        simp only at this
        rw [this]
        omega

/-- **C4 (amended).**  `errorCount` is incremented on every failed
attempt, but any attempt on which an HTTP response arrives — even a
non-2xx one — first resets it to 0 (the status update with
`connected = true` precedes the `response.ok` check), so only a streak of
pure transport failures accumulates: after `k` consecutive transport-error
attempts `errorCount` has grown by exactly `k` since the last success,
whereas a streak of non-2xx responses leaves it at 1; it is 0 after any
successful attempt. -/
theorem errorCount_growth_transport_only (cfg : ApiConfig)
    (outs : Nat → Outcome) (st : ConnectionStatus)
    (hf : ∀ j, isTransport (outs j) = true) :
    (request cfg outs st).status.errorCount =
      st.errorCount + (cfg.retryAttempts + 1) ∧
    ∀ (dur : Nat) (st' : ConnectionStatus),
      (request cfg (fun _ => Outcome.ok dur) st').status.errorCount = 0 := by
  refine ⟨?_, fun dur st' => rfl⟩
  exact requestLoop_transport_errorCount cfg.retryAttempts outs hf
    (cfg.retryAttempts + 1) 0 0 st (by omega)

/-- Witness for the amended C4 theorem: three consecutive transport
failures (`retryAttempts = 2`) grow `errorCount` from 0 to 3, and a
successful run resets it to 0. -/
theorem errorCount_growth_transport_only_witness :
    (request { defaultConfig with retryAttempts := 2 }
      (fun _ => Outcome.transport "Failed to fetch" 5)
      initialStatus).status.errorCount = initialStatus.errorCount + (2 + 1) ∧
    ∀ (dur : Nat) (st' : ConnectionStatus),
      (request { defaultConfig with retryAttempts := 2 }
        (fun _ => Outcome.ok dur) st').status.errorCount = 0 :=
  errorCount_growth_transport_only { defaultConfig with retryAttempts := 2 }
    (fun _ => Outcome.transport "Failed to fetch" 5) initialStatus
    (fun _ => rfl)

/-! ## Subscription hook (`usePlantTelemetry.fetchData`)

The hook's four `useState` cells, and the effect of one resolved fetch on
them.  The `ApiResponse` mirrors the executor's resolved value:
`{success, data?, error?, timestamp?}` (the client's `request` never
rejects, so only the resolved shape matters). -/

structure ApiResponse where
  success : Bool
  data : Option String
  error : Option String
  timestamp : Option String
  deriving Repr, DecidableEq

structure HookState where
  data : Option String
  loading : Bool
  error : Option String
  lastUpdated : Option String
  deriving Repr, DecidableEq

/-- `const [data, setData] = useState(null); …` before any fetch. -/
def initialHookState : HookState := ⟨none, false, none, none⟩

/-- `usePlantTelemetry.fetchData`, run to completion on one resolved
response: bail out unless `plantId && enabled`; `setLoading(true)` and
`setError(null)`; on `response.success && response.data` replace `data`
and `lastUpdated` (falling back to `new Date().toISOString()`, the `now`
argument, when the response carries no timestamp); otherwise `setError`
to the response's error or the fallback text; finally `setLoading(false)`. -/
def fetchData (plantId : Option String) (enabled : Bool) (resp : ApiResponse)
    (now : String) (st : HookState) : HookState :=
  if plantId = none ∨ enabled = false then st
  else
    let st1 := { st with loading := true, error := none }
    let st2 :=
      if resp.success ∧ resp.data ≠ none then
        { st1 with data := resp.data,
                   lastUpdated := some (resp.timestamp.getD now) }
      else
        { st1 with error := some (resp.error.getD "Failed to fetch plant data") }
    { st2 with loading := false }

/-- **C9 (confirmed).**  A fetch that resolves as a failure (non-success,
or success with no payload) sets only the hook's `error` field — to the
result's message, or the fallback text when the result carries none —
and leaves the previously-held `data` and `lastUpdated` untouched; a
successful fetch, conversely, replaces `data` and `lastUpdated` together
and leaves `error` cleared. -/
theorem failed_fetch_preserves_data (plantId : Option String) (resp : ApiResponse)
    (now : String) (st : HookState) (hp : plantId ≠ none)
    (hf : resp.success = false ∨ resp.data = none) :
    (fetchData plantId true resp now st).data = st.data ∧
    (fetchData plantId true resp now st).lastUpdated = st.lastUpdated ∧
    (fetchData plantId true resp now st).error =
      some (resp.error.getD "Failed to fetch plant data") ∧
    (fetchData plantId true resp now st).loading = false ∧
    ∀ resp' : ApiResponse, resp'.success = true → resp'.data ≠ none →
      (fetchData plantId true resp' now st).data = resp'.data ∧
      (fetchData plantId true resp' now st).lastUpdated =
        some (resp'.timestamp.getD now) ∧
      (fetchData plantId true resp' now st).error = none := by
  have hcond : ¬(resp.success = true ∧ resp.data ≠ none) := by
    rcases hf with h | h <;> simp [h]
  refine ⟨?_, ?_, ?_, ?_, ?_⟩
  · simp [fetchData, hp, hcond]
  · simp [fetchData, hp, hcond]
  · simp [fetchData, hp, hcond]
  · simp [fetchData, hp, hcond]
  · intro resp' hs hd
    refine ⟨?_, ?_, ?_⟩ <;> simp [fetchData, hp, hs, hd]

/-- Witness for C9: with data already held, a failed fetch keeps `data`
and `lastUpdated` and records the error, while a successful one replaces
them. -/
theorem failed_fetch_preserves_data_witness :
    (fetchData (some "p1") true ⟨false, none, some "HTTP 500: oops", some "T1"⟩ "T2"
      ⟨some "old", false, none, some "T0"⟩).data = some "old" ∧
    (fetchData (some "p1") true ⟨false, none, some "HTTP 500: oops", some "T1"⟩ "T2"
      ⟨some "old", false, none, some "T0"⟩).lastUpdated = some "T0" ∧
    (fetchData (some "p1") true ⟨false, none, some "HTTP 500: oops", some "T1"⟩ "T2"
      ⟨some "old", false, none, some "T0"⟩).error = some "HTTP 500: oops" ∧
    (fetchData (some "p1") true ⟨false, none, some "HTTP 500: oops", some "T1"⟩ "T2"
      ⟨some "old", false, none, some "T0"⟩).loading = false ∧
    ∀ resp' : ApiResponse, resp'.success = true → resp'.data ≠ none →
      (fetchData (some "p1") true resp' "T2"
        ⟨some "old", false, none, some "T0"⟩).data = resp'.data ∧
      (fetchData (some "p1") true resp' "T2"
        ⟨some "old", false, none, some "T0"⟩).lastUpdated =
        some (resp'.timestamp.getD "T2") ∧
      (fetchData (some "p1") true resp' "T2"
        ⟨some "old", false, none, some "T0"⟩).error = none := by
  have h := failed_fetch_preserves_data (some "p1")
    ⟨false, none, some "HTTP 500: oops", some "T1"⟩ "T2"
    ⟨some "old", false, none, some "T0"⟩ (by simp) (Or.inl rfl)
  simpa using h

/-! ## `getConnectionStatus` returns a copy

Objects live in a heap of `ConnectionStatus` records addressed by
allocation index; `statusRef` is the address of the client's private
`connectionStatus`.  `getConnectionStatus` evaluates
`{ ...this.connectionStatus }`: it allocates a *new* record whose fields
are copied from the internal one (all four fields are primitives, so the
spread is a full copy) and hands its address to the caller. -/

abbrev Heap := List ConnectionStatus

/-- `getConnectionStatus`: allocate a fresh record at the end of the heap
holding a copy of the internal record's fields, and return its address. -/
def getConnectionStatus (h : Heap) (statusRef : Nat) : Heap × Nat :=
  (h ++ [(h.getD statusRef initialStatus)], h.length)

/-- A caller mutating the record at address `r` in place. -/
def mutateAt (h : Heap) (r : Nat) (f : ConnectionStatus → ConnectionStatus) : Heap :=
  h.set r (f (h.getD r initialStatus))

/-- **C10 (confirmed).**  `getConnectionStatus` hands out a fresh copy:
its returned address differs from the internal record's address, the
internal record is unchanged by the call, mutating the returned record
arbitrarily still leaves the internal record unchanged, and a later
`getConnectionStatus` still copies the (unchanged) internal value rather
than anything the caller wrote. -/
theorem getConnectionStatus_returns_copy (h : Heap) (statusRef : Nat)
    (f : ConnectionStatus → ConnectionStatus) (hv : statusRef < h.length) :
    (getConnectionStatus h statusRef).2 ≠ statusRef ∧
    (getConnectionStatus h statusRef).1[statusRef]? = h[statusRef]? ∧
    (mutateAt (getConnectionStatus h statusRef).1
        (getConnectionStatus h statusRef).2 f)[statusRef]? = h[statusRef]? ∧
    (getConnectionStatus (mutateAt (getConnectionStatus h statusRef).1
        (getConnectionStatus h statusRef).2 f) statusRef).1.getD
        (getConnectionStatus (mutateAt (getConnectionStatus h statusRef).1
          (getConnectionStatus h statusRef).2 f) statusRef).2 initialStatus =
      h.getD statusRef initialStatus := by
  have hne : h.length ≠ statusRef := by omega
  have hget : (h ++ [h.getD statusRef initialStatus])[statusRef]? = h[statusRef]? :=
    List.getElem?_append_left hv
  have hmut : (mutateAt (h ++ [h.getD statusRef initialStatus]) h.length f)[statusRef]? =
      h[statusRef]? := by
    unfold mutateAt
    rw [List.getElem?_set_ne (by omega)]
    exact hget
  have hmut2 := hmut
  rw [List.getD_eq_getElem?_getD] at hmut2
  refine ⟨hne, hget, hmut, ?_⟩
  simp only [getConnectionStatus]
  rw [List.getD_eq_getElem?_getD, List.getElem?_concat_length, Option.getD_some,
    List.getD_eq_getElem?_getD, List.getD_eq_getElem?_getD, hmut2]

/-- Witness for C10 at a concrete heap: the client's record sits at
address 0 holding `errorCount = 7`; the caller zeroes every field of the
returned copy, yet the internal record and the next copy still read 7. -/
theorem getConnectionStatus_returns_copy_witness :
    (getConnectionStatus [⟨true, 5, 120, 7⟩] 0).2 ≠ 0 ∧
    (getConnectionStatus [⟨true, 5, 120, 7⟩] 0).1[0]? = [(⟨true, 5, 120, 7⟩ : ConnectionStatus)][0]? ∧
    (mutateAt (getConnectionStatus [⟨true, 5, 120, 7⟩] 0).1
        (getConnectionStatus [⟨true, 5, 120, 7⟩] 0).2 (fun _ => initialStatus))[0]? =
      [(⟨true, 5, 120, 7⟩ : ConnectionStatus)][0]? ∧
    (getConnectionStatus (mutateAt (getConnectionStatus [⟨true, 5, 120, 7⟩] 0).1
        (getConnectionStatus [⟨true, 5, 120, 7⟩] 0).2 (fun _ => initialStatus)) 0).1.getD
        (getConnectionStatus (mutateAt (getConnectionStatus [⟨true, 5, 120, 7⟩] 0).1
          (getConnectionStatus [⟨true, 5, 120, 7⟩] 0).2 (fun _ => initialStatus)) 0).2
        initialStatus =
      [(⟨true, 5, 120, 7⟩ : ConnectionStatus)].getD 0 initialStatus :=
  getConnectionStatus_returns_copy [⟨true, 5, 120, 7⟩] 0 (fun _ => initialStatus)
    (by simp)

end SIH
